import Mathlib

/-!
Verification of the ProductionCash allocation and projection engine.

The definitions below are a shallow embedding of `portfolio_calculator.py`
and `data_fetcher.py`.  Money amounts and prices are modelled as rationals
(`ℚ`), dates as integers (`ℤ`, an abstract ordered timestamp), and the
market-data provider (`DataFetcher`) as an oracle record of functions.
Python `float` arithmetic is modelled by exact rational arithmetic, and a
Python exception that can escape a function is modelled with `Except`.
-/

namespace ProductionCash

/-! ## DCA projection (`calculate_dca_projection`, portfolio_calculator.py 270-311) -/

/-- One row of the chart data produced by `calculate_dca_projection`:
`{'Year': _, 'Total Cost': _, 'Asset Value': _, 'Passive Income (Yearly)': _}`. -/
structure DcaPoint where
  year : ℕ
  totalCost : ℚ
  assetValue : ℚ
  passiveIncome : ℚ
deriving DecidableEq

/-- Computes `monthly_return = ((portfolio_yield_percent / 100) + 0.03) / 12`
(lines 279-281; `annual_growth_rate = 0.03`). -/
def dcaMonthlyReturn (yieldPct : ℚ) : ℚ :=
  (yieldPct / 100 + 3 / 100) / 12

/-- One month of the simulation loop body (line 300):
`current_fv = (current_fv + monthly_amount) * (1 + monthly_return)`. -/
def dcaStep (mo r v : ℚ) : ℚ :=
  (v + mo) * (1 + r)

/-- The loop `for m in range(1, months + 1)` of lines 298-309.  The first
argument counts the months still to run, `m` is the current (1-based) month
number, `cost`/`fv` are `current_cost`/`current_fv`. -/
def dcaAux (mo yp r : ℚ) : ℕ → ℕ → ℚ → ℚ → List DcaPoint
  | 0, _, _, _ => []
  | n + 1, m, cost, fv =>
    let cost' := cost + mo
    let fv' := dcaStep mo r fv
    let rest := dcaAux mo yp r n (m + 1) cost' fv'
    if m % 12 = 0 then
      ⟨m / 12, cost', fv', fv' * (yp / 100)⟩ :: rest
    else rest

/-- Models `calculate_dca_projection(monthly_amount, years, portfolio_yield_percent)`
(lines 270-311); the returned `pd.DataFrame(data)` is modelled as the list of
rows appended to `data`.  The scalar `future_value`/`total_cost` computed at
lines 287-292 are dead code (they do not reach the returned frame). -/
def calculate_dca_projection (mo : ℚ) (years : ℕ) (yp : ℚ) : List DcaPoint :=
  dcaAux mo yp (dcaMonthlyReturn yp) (years * 12) 1 0 0

/-- General description of the month loop as a `filterMap` over the month
offsets it still has to process. -/
lemma dcaAux_eq (mo yp r : ℚ) (n : ℕ) : ∀ (m : ℕ) (cost fv : ℚ),
    dcaAux mo yp r n m cost fv =
      (List.range n).filterMap (fun k =>
        if (m + k) % 12 = 0 then
          some ⟨(m + k) / 12, cost + ((k : ℚ) + 1) * mo, (dcaStep mo r)^[k + 1] fv,
                ((dcaStep mo r)^[k + 1] fv) * (yp / 100)⟩
        else none) := by
  induction n with
  | zero => intro m cost fv; simp [dcaAux]
  | succ n ih =>
    intro m cost fv
    have htail :
        (List.range n).filterMap ((fun k =>
            if (m + k) % 12 = 0 then
              some (⟨(m + k) / 12, cost + ((k : ℚ) + 1) * mo, (dcaStep mo r)^[k + 1] fv,
                    ((dcaStep mo r)^[k + 1] fv) * (yp / 100)⟩ : DcaPoint)
            else none) ∘ Nat.succ) =
          dcaAux mo yp r n (m + 1) (cost + mo) (dcaStep mo r fv) := by
      rw [ih (m + 1) (cost + mo) (dcaStep mo r fv)]
      apply List.filterMap_congr
      intro k _
      have hm : m + 1 + k = m + (k + 1) := by omega
      simp only [Function.comp_apply, Nat.succ_eq_add_one, hm]
      by_cases h12 : (m + (k + 1)) % 12 = 0
      · rw [if_pos h12, if_pos h12]
        have hv : (dcaStep mo r)^[k + 1 + 1] fv = (dcaStep mo r)^[k + 1] (dcaStep mo r fv) :=
          Function.iterate_succ_apply (dcaStep mo r) (k + 1) fv
        simp only [Option.some.injEq, DcaPoint.mk.injEq, hv]
        refine ⟨?_, ?_, ?_, ?_⟩ <;> first | trivial | (push_cast; ring)
      · rw [if_neg h12, if_neg h12]
    rw [List.range_succ_eq_map, List.filterMap_cons, List.filterMap_map, htail]
    by_cases hm : m % 12 = 0
    · simp only [dcaAux, Nat.add_zero, hm, if_true]
      simp only [Nat.cast_zero, zero_add, one_mul, Function.iterate_one]
    · simp only [dcaAux, Nat.add_zero, hm, if_false]

/-- Collapsing the month offsets that hit a 12-month boundary when the loop
starts at month 1: with `12 * y` months to run, exactly the offsets
`12 * i + 11` (for `i < y`) survive the filter. -/
lemma filterMap_range_twelve {α : Type} (g : ℕ → α) (y : ℕ) :
    (List.range (12 * y)).filterMap (fun k => if (1 + k) % 12 = 0 then some (g k) else none) =
      (List.range y).map (fun i => g (12 * i + 11)) := by
  induction y with
  | zero => simp
  | succ y ih =>
    have h : 12 * (y + 1) = 12 * y + 12 := by ring
    have h12 : List.range 12 = [0, 1, 2, 3, 4, 5, 6, 7, 8, 9, 10, 11] := by decide
    rw [h, List.range_add, h12, List.filterMap_append, ih, List.range_succ, List.map_append]
    congr 1
    have c0 : ¬(1 + (12 * y + 0)) % 12 = 0 := by omega
    have c1 : ¬(1 + (12 * y + 1)) % 12 = 0 := by omega
    have c2 : ¬(1 + (12 * y + 2)) % 12 = 0 := by omega
    have c3 : ¬(1 + (12 * y + 3)) % 12 = 0 := by omega
    have c4 : ¬(1 + (12 * y + 4)) % 12 = 0 := by omega
    have c5 : ¬(1 + (12 * y + 5)) % 12 = 0 := by omega
    have c6 : ¬(1 + (12 * y + 6)) % 12 = 0 := by omega
    have c7 : ¬(1 + (12 * y + 7)) % 12 = 0 := by omega
    have c8 : ¬(1 + (12 * y + 8)) % 12 = 0 := by omega
    have c9 : ¬(1 + (12 * y + 9)) % 12 = 0 := by omega
    have c10 : ¬(1 + (12 * y + 10)) % 12 = 0 := by omega
    have c11 : (1 + (12 * y + 11)) % 12 = 0 := by omega
    simp [List.filterMap_cons, c0, c1, c2, c3, c4, c5, c6, c7, c8, c9, c10, c11]

/-- Closed form of `calculate_dca_projection`: one emitted row per completed
year `i + 1`, with cumulative cost `12 * (i + 1) * monthly` and asset value
given by iterating the contribution-then-growth step `12 * (i + 1)` times
from 0. -/
lemma calculate_dca_projection_eq (mo yp : ℚ) (y : ℕ) :
    calculate_dca_projection mo y yp =
      (List.range y).map (fun i =>
        ⟨i + 1, 12 * ((i : ℚ) + 1) * mo,
         (dcaStep mo (dcaMonthlyReturn yp))^[12 * (i + 1)] 0,
         ((dcaStep mo (dcaMonthlyReturn yp))^[12 * (i + 1)] 0) * (yp / 100)⟩) := by
  unfold calculate_dca_projection
  rw [dcaAux_eq, show y * 12 = 12 * y by ring, filterMap_range_twelve]
  apply List.map_congr_left
  intro i _
  have hyear : (1 + (12 * i + 11)) / 12 = i + 1 := by omega
  have hidx : 12 * i + 11 + 1 = 12 * (i + 1) := by omega
  have hcost : (0 : ℚ) + (((12 * i + 11 : ℕ) : ℚ) + 1) * mo = 12 * ((i : ℚ) + 1) * mo := by
    push_cast
    ring
  simp only [hyear, hidx, hcost]

/-- Claim C5: for every monthlyAmount, years and portfolioYieldPercent,
`ProjectDCA` returns exactly `years` points ordered by increasing year index;
point `i` (zero-based) has year `i + 1` and cumulative cost
`monthlyAmount * 12 * (i + 1)`, and its asset value is the
contribution-then-growth recurrence `v ← (v + monthly) * (1 + r)` iterated
monthly from `v = 0` and sampled at each 12-month boundary, with passive
income `assetValue * yieldPercent / 100`. -/
theorem claim_C5_dca_projection_shape (mo yp : ℚ) (y : ℕ) :
    (calculate_dca_projection mo y yp).length = y ∧
    calculate_dca_projection mo y yp =
      (List.range y).map (fun i =>
        ⟨i + 1, mo * 12 * ((i : ℚ) + 1),
         (dcaStep mo (dcaMonthlyReturn yp))^[12 * (i + 1)] 0,
         ((dcaStep mo (dcaMonthlyReturn yp))^[12 * (i + 1)] 0) * (yp / 100)⟩) := by
  constructor
  · rw [calculate_dca_projection_eq]
    simp
  · rw [calculate_dca_projection_eq]
    apply List.map_congr_left
    intro i _
    have : 12 * ((i : ℚ) + 1) * mo = mo * 12 * ((i : ℚ) + 1) := by ring
    rw [this]

/-- With a zero monthly return the step degenerates to plain accumulation. -/
lemma dcaStep_zero_iterate (mo : ℚ) : ∀ n : ℕ, (dcaStep mo 0)^[n] 0 = n * mo := by
  intro n
  induction n with
  | zero => simp
  | succ n ih =>
    rw [Function.iterate_succ_apply', ih, dcaStep]
    push_cast
    ring

/-- Claim C7: whenever the computed monthly return is exactly zero and
`years ≥ 1`, the final point of `ProjectDCA` has asset value
`monthlyAmount * years * 12` (simple linear accumulation). -/
theorem claim_C7_dca_linear_degenerate (mo yp : ℚ) (y : ℕ)
    (hy : 1 ≤ y) (hr : dcaMonthlyReturn yp = 0) :
    ((calculate_dca_projection mo y yp).map DcaPoint.assetValue).getLast? =
      some (mo * (12 * (y : ℚ))) := by
  obtain ⟨y', rfl⟩ : ∃ y', y = y' + 1 := ⟨y - 1, by omega⟩
  rw [calculate_dca_projection_eq, List.map_map, List.range_succ, List.map_append]
  simp only [List.map_cons, List.map_nil, Function.comp_apply]
  rw [List.getLast?_append]
  simp only [List.getLast?_singleton, Option.getD_some, Option.or_some]
  rw [hr, dcaStep_zero_iterate]
  push_cast
  ring_nf

/-- Witness for claim C7: the theorem applied at `monthlyAmount = 5`,
`years = 1`, `yieldPercent = -3` (which makes the monthly return exactly 0),
giving the linear final value `5 * 12 = 60`. -/
theorem claim_C7_dca_linear_degenerate_witness :
    1 ≤ 1 ∧ dcaMonthlyReturn (-3) = 0 ∧
      ((calculate_dca_projection 5 1 (-3)).map DcaPoint.assetValue).getLast? = some 60 := by
  refine ⟨le_refl 1, by norm_num [dcaMonthlyReturn], ?_⟩
  have h := claim_C7_dca_linear_degenerate 5 (-3) 1 (le_refl 1)
    (by norm_num [dcaMonthlyReturn])
  rw [h]
  norm_num

/-- Each month strictly increases the accumulated value as long as the
monthly contribution and the growth factor `1 + r` are positive. -/
lemma dcaIterate_lt_succ (mo r : ℚ) (hmo : 0 < mo) (hr : 0 < 1 + r) :
    ∀ n : ℕ, (dcaStep mo r)^[n] 0 < (dcaStep mo r)^[n + 1] 0 := by
  intro n
  induction n with
  | zero =>
    simp only [Function.iterate_zero_apply, Function.iterate_one, dcaStep]
    have h1 : (0 : ℚ) < 0 + mo := by linarith
    exact mul_pos h1 hr
  | succ n ih =>
    conv_rhs => rw [Function.iterate_succ_apply' (dcaStep mo r) (n + 1)]
    conv_lhs => rw [Function.iterate_succ_apply' (dcaStep mo r) n]
    exact mul_lt_mul_of_pos_right (add_lt_add_right ih mo) hr

/-- The accumulated value is strictly monotone in the number of months. -/
lemma dcaIterate_strictMono (mo r : ℚ) (hmo : 0 < mo) (hr : 0 < 1 + r) :
    StrictMono (fun n : ℕ => (dcaStep mo r)^[n] 0) :=
  strictMono_nat_of_lt_succ (dcaIterate_lt_succ mo r hmo hr)

/-- Claim C6 (amended): for every `years ≥ 2`, whenever `monthlyAmount > 0`
AND the simulated monthly growth factor `1 + monthlyReturn` is positive, the
asset values of the points returned by `ProjectDCA` are strictly increasing
in the year index.  (The extra positivity hypothesis is forced by the
counterexample `claim_C6_counterexample` below: at
`portfolioYieldPercent = -1203` the factor is 0 and all asset values are 0.) -/
theorem claim_C6_dca_strictly_increasing (mo yp : ℚ) (y : ℕ)
    (hmo : 0 < mo) (_hy : 2 ≤ y) (hr : 0 < 1 + dcaMonthlyReturn yp) :
    ((calculate_dca_projection mo y yp).map DcaPoint.assetValue).Chain' (· < ·) := by
  rw [calculate_dca_projection_eq, List.map_map]
  have hmono : StrictMono (fun i : ℕ => (dcaStep mo (dcaMonthlyReturn yp))^[12 * (i + 1)] 0) := by
    intro a b hab
    exact dcaIterate_strictMono mo (dcaMonthlyReturn yp) hmo hr (by omega)
  have hpw : (List.Pairwise (· < ·)
      ((List.range y).map (fun i => (dcaStep mo (dcaMonthlyReturn yp))^[12 * (i + 1)] 0))) :=
    List.Pairwise.map _ (fun a b h => hmono h) (List.pairwise_lt_range y)
  exact List.Pairwise.chain' hpw

/-- Witness for claim C6: the amended theorem applied at
`monthlyAmount = 1`, `years = 2`, `yieldPercent = 5`. -/
theorem claim_C6_dca_strictly_increasing_witness :
    (0 : ℚ) < 1 ∧ 2 ≤ 2 ∧ 0 < 1 + dcaMonthlyReturn 5 ∧
      ((calculate_dca_projection 1 2 5).map DcaPoint.assetValue).Chain' (· < ·) :=
  ⟨by norm_num, by norm_num, by norm_num [dcaMonthlyReturn],
    claim_C6_dca_strictly_increasing 1 5 2 (by norm_num) (by norm_num)
      (by norm_num [dcaMonthlyReturn])⟩

/-- With growth factor 0 (monthly return `-1`) every accumulated value is 0. -/
lemma dcaStep_neg_one_iterate (mo : ℚ) : ∀ n : ℕ, (dcaStep mo (-1))^[n] 0 = 0 := by
  intro n
  induction n with
  | zero => simp
  | succ n ih =>
    rw [Function.iterate_succ_apply', ih, dcaStep]
    ring

/-- Counterexample to claim C6 as stated: at `monthlyAmount = 1 > 0`,
`years = 2` and `portfolioYieldPercent = -1203` the monthly return is exactly
`-1`, every asset value is 0, and the asset-value sequence is not strictly
increasing. -/
theorem claim_C6_counterexample :
    ((calculate_dca_projection 1 2 (-1203)).map DcaPoint.assetValue) = [0, 0] ∧
      ¬ ((calculate_dca_projection 1 2 (-1203)).map DcaPoint.assetValue).Chain' (· < ·) := by
  have hr : dcaMonthlyReturn (-1203) = -1 := by norm_num [dcaMonthlyReturn]
  have heq : ((calculate_dca_projection 1 2 (-1203)).map DcaPoint.assetValue) = [0, 0] := by
    rw [calculate_dca_projection_eq, List.map_map]
    have h2 : List.range 2 = [0, 1] := by decide
    rw [h2]
    simp [hr, dcaStep_neg_one_iterate]
  refine ⟨heq, ?_⟩
  rw [heq]
  simp only [List.chain'_cons, List.chain'_singleton, and_true]
  exact lt_irrefl 0

/-! ## Python primitives -/

/-- Python `int(x)` applied to a (here: rational-valued) float: truncation
toward zero. -/
def pyInt (q : ℚ) : ℤ :=
  if 0 ≤ q then ⌊q⌋ else -⌊-q⌋

/-- Share quantity in the custom-allocation pass
(portfolio_calculator.py line 143):
`quantity = int(alloc_capital / price_twd) if price_twd > 0 else 0`. -/
def quantityCustom (alloc priceTwd : ℚ) : ℤ :=
  if 0 < priceTwd then pyInt (alloc / priceTwd) else 0

/-- Share quantity in `process_category` (portfolio_calculator.py line 205):
`quantity = int(allocation_per_asset / price_twd)`. -/
def quantityCategory (alloc priceTwd : ℚ) : ℤ :=
  pyInt (alloc / priceTwd)

/-- Truncation toward zero agrees with the floor on non-negative arguments. -/
lemma pyInt_eq_floor (q : ℚ) (hq : 0 ≤ q) : pyInt q = ⌊q⌋ := by
  rw [pyInt, if_pos hq]

/-- Claim C8: for a budget `B ≥ 0` and a positive home-currency unit price
`p`, both passes compute `quantity = ⌊B / p⌋`, a non-negative integer, and
the resulting cost `quantity * p` satisfies `0 ≤ cost ≤ B`. -/
theorem claim_C8_quantity_floor_cost_bounds (B p : ℚ) (hB : 0 ≤ B) (hp : 0 < p) :
    quantityCustom B p = ⌊B / p⌋ ∧ quantityCategory B p = ⌊B / p⌋ ∧
    0 ≤ quantityCustom B p ∧
    0 ≤ (quantityCustom B p : ℚ) * p ∧ (quantityCustom B p : ℚ) * p ≤ B := by
  have hq : (0 : ℚ) ≤ B / p := div_nonneg hB hp.le
  have hcust : quantityCustom B p = ⌊B / p⌋ := by
    rw [quantityCustom, if_pos hp, pyInt_eq_floor _ hq]
  have hcat : quantityCategory B p = ⌊B / p⌋ := by
    rw [quantityCategory, pyInt_eq_floor _ hq]
  have hfl : (0 : ℤ) ≤ ⌊B / p⌋ := Int.floor_nonneg.mpr hq
  refine ⟨hcust, hcat, hcust ▸ hfl, ?_, ?_⟩
  · rw [hcust]
    have : (0 : ℚ) ≤ (⌊B / p⌋ : ℚ) := by exact_mod_cast hfl
    exact mul_nonneg this hp.le
  · rw [hcust]
    have h1 : ((⌊B / p⌋ : ℚ)) ≤ B / p := Int.floor_le _
    have h2 : ((⌊B / p⌋ : ℚ)) * p ≤ (B / p) * p := mul_le_mul_of_nonneg_right h1 hp.le
    rwa [div_mul_cancel₀ B (ne_of_gt hp)] at h2

/-- Witness for claim C8 at `B = 10`, `p = 3`. -/
theorem claim_C8_quantity_floor_cost_bounds_witness :
    (0 : ℚ) ≤ 10 ∧ (0 : ℚ) < 3 ∧
      (quantityCustom 10 3 = ⌊(10 : ℚ) / 3⌋ ∧ quantityCategory 10 3 = ⌊(10 : ℚ) / 3⌋ ∧
       0 ≤ quantityCustom 10 3 ∧
       0 ≤ (quantityCustom 10 3 : ℚ) * 3 ∧ (quantityCustom 10 3 : ℚ) * 3 ≤ 10) :=
  ⟨by norm_num, by norm_num,
    claim_C8_quantity_floor_cost_bounds 10 3 (by norm_num) (by norm_num)⟩

/-! ## Dividend-fill analysis (`analyze_fill_dividend`,
portfolio_calculator.py 31-94) -/

/-- One bar of the price history (only the columns the engine reads). -/
structure Bar where
  date : ℤ
  close : ℚ
  high : ℚ
deriving DecidableEq

/-- One dividend event `(ex-date, amount)`. -/
structure DivEvent where
  date : ℤ
  amount : ℚ
deriving DecidableEq

/-- The result dict of `analyze_fill_dividend`:
`{'filled_count': _, 'total_count': _, 'avg_days': _}`. -/
structure FillStats where
  filled_count : ℕ
  total_count : ℕ
  avg_days : ℚ
deriving DecidableEq

/-- Models `history.index.searchsorted(date)` (line 56): for a date-sorted history,
the left insertion point, i.e. the number of leading bars with date strictly
before `d`. -/
def searchsorted (history : List Bar) (d : ℤ) : ℕ :=
  (history.takeWhile (fun b => b.date < d)).length

/-- One iteration of the per-event loop of `analyze_fill_dividend`
(lines 49-87), acting on the accumulator `(filled_count, total_days)`:
locate the first bar at or after the ex-date (`continue` when the index is
past the end of history), derive `pre_close`, then scan the highs from the
ex-date bar onwards for the first day that reaches `pre_close`. -/
def fillEventStep (history : List Bar) (acc : ℕ × ℕ) (e : DivEvent) : ℕ × ℕ :=
  let idx := searchsorted history e.date
  match history.get? idx with
  | none => acc
  | some exBar =>
    let preClose := if 0 < idx then (history.getD (idx - 1) exBar).close
                    else exBar.close + e.amount
    match (history.drop idx).findIdx? (fun b => preClose ≤ b.high) with
    | some i => (acc.1 + 1, acc.2 + i)
    | none => acc

/-- Models `analyze_fill_dividend(symbol, history, dividends)` (lines 31-94); the
`pd.Timestamp.now() - timedelta(days=730)` cutoff is passed in as an abstract
timestamp.  Note that `total_count` is `len(recent_dividends)` (line 92),
computed independently of the per-event loop. -/
def analyze_fill_dividend (cutoff : ℤ) (history : List Bar) (dividends : List DivEvent) :
    FillStats :=
  if history = [] ∨ dividends = [] then ⟨0, 0, 0⟩
  else
    let recent := dividends.filter (fun e => cutoff ≤ e.date)
    if recent = [] then ⟨0, 0, 0⟩
    else
      let res := recent.foldl (fillEventStep history) (0, 0)
      ⟨res.1, recent.length, if 0 < res.1 then (res.2 : ℚ) / (res.1 : ℚ) else 0⟩

/-- The count claim C2 says `total_count` should report: trailing-window
events whose ex-date index is locatable inside the price history. -/
def locatableRecentCount (cutoff : ℤ) (history : List Bar) (dividends : List DivEvent) : ℕ :=
  ((dividends.filter (fun e => cutoff ≤ e.date)).filter
    (fun e => searchsorted history e.date < history.length)).length

/-- Each event increments the filled count by at most one. -/
lemma fillEventStep_fst_le (history : List Bar) (acc : ℕ × ℕ) (e : DivEvent) :
    (fillEventStep history acc e).1 ≤ acc.1 + 1 := by
  simp only [fillEventStep]
  split
  · omega
  · split
    · simp
    · omega

/-- The filled count after the loop is bounded by the number of events. -/
lemma fillFold_fst_le (history : List Bar) :
    ∀ (l : List DivEvent) (acc : ℕ × ℕ),
      (l.foldl (fillEventStep history) acc).1 ≤ acc.1 + l.length := by
  intro l
  induction l with
  | nil => intro acc; simp
  | cons e rest ih =>
    intro acc
    have h1 := fillEventStep_fst_le history acc e
    have h2 := ih (fillEventStep history acc e)
    simp only [List.foldl_cons, List.length_cons]
    omega

/-- Claim C2 (amended): whenever the price history is non-empty, the reported
`total_count` equals the number of ALL trailing-730-day dividend events —
including events whose ex-date falls past the end of the price history and
events whose per-event computation is skipped — and the filled count never
exceeds it.  (The original claim, that non-locatable events are excluded from
the total, is refuted by `claim_C2_counterexample`.) -/
theorem claim_C2_total_counts_all_recent (cutoff : ℤ) (history : List Bar)
    (dividends : List DivEvent) (hh : history ≠ []) :
    (analyze_fill_dividend cutoff history dividends).total_count =
      (dividends.filter (fun e => cutoff ≤ e.date)).length ∧
    (analyze_fill_dividend cutoff history dividends).filled_count ≤
      (analyze_fill_dividend cutoff history dividends).total_count := by
  by_cases hd : dividends = []
  · subst hd
    simp [analyze_fill_dividend]
  · have hcond : ¬(history = [] ∨ dividends = []) := by simp [hh, hd]
    by_cases hr : dividends.filter (fun e => cutoff ≤ e.date) = []
    · simp only [analyze_fill_dividend, if_neg hcond, hr, if_pos]
      simp [hr]
    · simp only [analyze_fill_dividend, if_neg hcond, if_neg hr]
      refine ⟨trivial, ?_⟩
      have := fillFold_fst_le history (dividends.filter (fun e => cutoff ≤ e.date)) (0, 0)
      simpa using this

/-- Witness for claim C2 (amended form): one in-window event located at the
only bar of a one-bar history. -/
theorem claim_C2_total_counts_all_recent_witness :
    ([(⟨0, 1, 1⟩ : Bar)] ≠ ([] : List Bar)) ∧
    ((analyze_fill_dividend 0 [⟨0, 1, 1⟩] [⟨0, 1⟩]).total_count =
        (([⟨0, 1⟩] : List DivEvent).filter (fun e => (0 : ℤ) ≤ e.date)).length ∧
      (analyze_fill_dividend 0 [⟨0, 1, 1⟩] [⟨0, 1⟩]).filled_count ≤
        (analyze_fill_dividend 0 [⟨0, 1, 1⟩] [⟨0, 1⟩]).total_count) :=
  ⟨by simp, claim_C2_total_counts_all_recent 0 [⟨0, 1, 1⟩] [⟨0, 1⟩] (by simp)⟩

/-- Counterexample to claim C2 as stated: a single trailing-window dividend
event whose ex-date (20) lies past the end of the one-bar price history
(date 10).  The event is not locatable — the per-event loop `continue`s —
yet the reported `total_count` is 1, not 0. -/
theorem claim_C2_counterexample :
    (analyze_fill_dividend 0 [⟨10, 5, 5⟩] [⟨20, 1⟩]).total_count = 1 ∧
    locatableRecentCount 0 [⟨10, 5, 5⟩] [⟨20, 1⟩] = 0 := by
  constructor
  · simp [analyze_fill_dividend]
  · simp [locatableRecentCount, searchsorted]

/-! ## Market-data provider (data_fetcher.DataFetcher), modelled as an oracle -/

/-- The result dict of `get_dividend_info`: `{'date': str, 'yield': float}`. -/
structure DivInfo where
  date : String
  yieldFraction : ℚ
deriving DecidableEq

/-- Abstract oracle for the `DataFetcher` methods consumed by
`calculate_portfolio`; each network-facing method is modelled as a pure
function of the symbol.  `stock_price` may report a price as unavailable
(`none`); a price of `some 0` is falsy in Python just like `None`. -/
structure Fetcher where
  exchange_rate : ℚ
  stock_price : String → Option ℚ
  dividend_info : String → DivInfo
  historical_2y : String → List Bar
  dividend_history : String → List DivEvent
  historical_6mo : String → List (ℤ × ℚ)
  stock_name : String → Option String

/-! ## Portfolio construction (`calculate_portfolio`,
portfolio_calculator.py 96-268) -/

/-- One entry of the static candidate pool (lines 8-16). -/
structure Candidate where
  symbol : String
  cname : String
  ctype : String
  market : String
deriving DecidableEq

/-- The candidate pool `self.candidates` (lines 8-16). -/
def candidates : List Candidate :=
  [⟨"2330.TW", "台積電", "Stock", "TW"⟩,
   ⟨"0050.TW", "元大台灣50", "ETF", "TW"⟩,
   ⟨"0056.TW", "元大高股息", "ETF", "TW"⟩,
   ⟨"AAPL", "Apple Inc.", "Stock", "US"⟩,
   ⟨"VOO", "Vanguard S&P 500 ETF", "ETF", "US"⟩,
   ⟨"00679B.TW", "元大美債20年", "Bond", "TW"⟩,
   ⟨"BND", "Vanguard Total Bond Market", "Bond", "US"⟩]

/-- The metadata table `self.pros_cons_db` (lines 18-26). -/
def pros_cons_db : List (String × String × String) :=
  [("2330.TW", "全球晶圓代工龍頭，技術領先", "受地緣政治風險影響較大"),
   ("0050.TW", "追蹤台股前50大市值公司，跟隨大盤成長", "受單一產業(半導體)權重影響大"),
   ("0056.TW", "高股息殖利率，現金流穩定", "成長性可能不如市值型ETF"),
   ("AAPL", "強大的品牌護城河與生態系", "硬體銷售成長趨緩"),
   ("VOO", "分散投資美國500大企業，費用率極低", "匯率風險"),
   ("00679B.TW", "投資美國長天期公債，避險效果佳", "受聯準會利率政策影響大"),
   ("BND", "廣泛投資美國投資級債券，波動低", "收益率相對股票較低")]

/-- Models `get_pros_cons(symbol)` (lines 28-29). -/
def get_pros_cons (symbol : String) : String × String :=
  match pros_cons_db.lookup symbol with
  | some pc => pc
  | none => ("N/A", "N/A")

/-- One portfolio line, the dict appended at lines 151-166 / 213-228.  The
display strings `fill_dividend_2y = f"{filled}/{total}"` and
`avg_fill_days = f"{avg:.1f} 天"` are modelled by the values formatted into
them. -/
structure Line where
  symbol : String
  lname : String
  ltype : String
  price : ℚ
  price_twd : ℚ
  quantity : ℤ
  cost_twd : ℚ
  est_annual_income : ℚ
  yield_rate : ℚ
  dividend_date : String
  pros : String
  cons : String
  fill_filled : ℕ
  fill_total : ℕ
  avg_fill_days : ℚ
deriving DecidableEq

/-- Models `symbol.endswith('.TW') or symbol.endswith('.TWO')` — the domestic-market
heuristic of lines 139 and 249. -/
def isTwSymbol (s : String) : Bool :=
  ".TW".data.isSuffixOf s.data || ".TWO".data.isSuffixOf s.data

/-- A Python exception escaping the modelled code. -/
inductive PyErr where
  | nameError (missing : String)
deriving DecidableEq

/-- Build one custom-pass portfolio line (lines 123-166) for a custom request
whose price fetch returned the truthy value `price`. -/
def mkCustomLine (f : Fetcher) (now : ℤ) (usd total_capital : ℚ)
    (symbol : String) (weight price : ℚ) : Line :=
  let alloc_capital := total_capital * weight
  let div_info := f.dividend_info symbol
  let fill_stats := analyze_fill_dividend (now - 730) (f.historical_2y symbol)
    (f.dividend_history symbol)
  let pc := get_pros_cons symbol
  let display_name :=
    match f.stock_name symbol with
    | some n => if n = "" then symbol ++ " (自訂)" else n ++ " (" ++ symbol ++ ")"
    | none => symbol ++ " (自訂)"
  let price_twd := if isTwSymbol symbol then price else price * usd
  let quantity := quantityCustom alloc_capital price_twd
  let cost := (quantity : ℚ) * price_twd
  let yield_rate := div_info.yieldFraction
  ⟨symbol, display_name, "Custom", price, price_twd, quantity, cost,
   cost * yield_rate, yield_rate * 100, div_info.date, pc.1, pc.2,
   fill_stats.filled_count, fill_stats.total_count, fill_stats.avg_days⟩

/-- The custom-allocation pass (lines 111-166), threading
`remaining_capital` and the growing `portfolio` list.  When a custom
symbol's price fetch returns a falsy value (`None` or `0`), line 120
executes `logging.warning(...)`; `portfolio_calculator.py` never imports
`logging`, so that line raises `NameError` instead of logging and skipping
the entry. -/
def processCustoms (f : Fetcher) (now : ℤ) (usd total_capital : ℚ) :
    List (String × ℚ) → ℚ → List Line → Except PyErr (ℚ × List Line)
  | [], remaining, acc => .ok (remaining, acc)
  | (symbol, weight) :: rest, remaining, acc =>
    match f.stock_price symbol with
    | none => .error (.nameError "logging")
    | some p =>
      if p = 0 then .error (.nameError "logging")
      else
        processCustoms f now usd total_capital rest
          (remaining - total_capital * weight)
          (acc ++ [mkCustomLine f now usd total_capital symbol weight p])

/-- Build one category-pass portfolio line (lines 200-228). -/
def mkCategoryLine (f : Fetcher) (now : ℤ) (usd alloc : ℚ) (cand : Candidate)
    (price : ℚ) : Line :=
  let div_info := f.dividend_info cand.symbol
  let fill_stats := analyze_fill_dividend (now - 730) (f.historical_2y cand.symbol)
    (f.dividend_history cand.symbol)
  let pc := get_pros_cons cand.symbol
  let price_twd := if cand.market = "US" then price * usd else price
  let quantity := quantityCategory alloc price_twd
  let cost := (quantity : ℚ) * price_twd
  let yield_rate := div_info.yieldFraction
  ⟨cand.symbol, cand.cname, cand.ctype, price, price_twd, quantity, cost,
   cost * yield_rate, yield_rate * 100, div_info.date, pc.1, pc.2,
   fill_stats.filled_count, fill_stats.total_count, fill_stats.avg_days⟩

/-- Models `process_category(candidates, available_capital)` (lines 184-228):
nothing is produced for an empty candidate list or a non-positive budget;
candidates whose price fetch is falsy are silently omitted. -/
def process_category (f : Fetcher) (now : ℤ) (usd : ℚ)
    (cands : List Candidate) (available_capital : ℚ) : List Line :=
  if cands = [] ∨ available_capital ≤ 0 then []
  else
    let alloc := available_capital / (cands.length : ℚ)
    cands.filterMap (fun cand =>
      match f.stock_price cand.symbol with
      | none => none
      | some p => if p = 0 then none else some (mkCategoryLine f now usd alloc cand p))

/-! ## Historical reconstruction (lines 234-266) -/

/-- Scale one symbol's 6-month close series by the line's quantity (and by
the exchange rate for a non-domestic symbol) — lines 246-253. -/
def scaleSeries (usd : ℚ) (symbol : String) (quantity : ℤ) (h : List (ℤ × ℚ)) :
    List (ℤ × ℚ) :=
  if isTwSymbol symbol then h.map (fun p => (p.1, p.2 * (quantity : ℚ)))
  else h.map (fun p => (p.1, p.2 * usd * (quantity : ℚ)))

/-- The column-accumulation loop of lines 236-260: one column per symbol,
skipping lines whose 6-month history is empty and symbols already present as
a column.  (The code's `portfolio_history.empty` branch coincides with the
membership check when the accumulator is empty.) -/
def buildColumns (f : Fetcher) (usd : ℚ) :
    List Line → List (String × List (ℤ × ℚ)) → List (String × List (ℤ × ℚ))
  | [], acc => acc
  | l :: rest, acc =>
    if f.historical_6mo l.symbol = [] then buildColumns f usd rest acc
    else if (acc.map Prod.fst).contains l.symbol then buildColumns f usd rest acc
    else
      buildColumns f usd rest
        (acc ++ [(l.symbol, scaleSeries usd l.symbol l.quantity (f.historical_6mo l.symbol))])

/-- Insertion into an ascending date list. -/
def insertSorted (d : ℤ) : List ℤ → List ℤ
  | [] => [d]
  | x :: xs => if d ≤ x then d :: x :: xs else x :: insertSorted d xs

/-- Collapse adjacent duplicates of a sorted date list. -/
def dedupAdjacent : List ℤ → List ℤ
  | [] => []
  | [d] => [d]
  | d :: d' :: ds =>
    if d = d' then dedupAdjacent (d' :: ds) else d :: dedupAdjacent (d' :: ds)

/-- The sorted union of the per-column dates — the index produced by the
outer joins of line 260. -/
def unionDates (cols : List (String × List (ℤ × ℚ))) : List ℤ :=
  dedupAdjacent (((cols.map (fun c => c.2.map Prod.fst)).flatten).foldr insertSorted [])

/-- Models `portfolio_history['Total Value'] = portfolio_history.sum(axis=1)`
followed by `.ffill().bfill()` (lines 262-266).  `DataFrame.sum(axis=1)`
skips missing entries — a date a symbol's series does not contain
contributes 0 for that symbol — and therefore leaves no hole for the
subsequent `ffill().bfill()` to fill. -/
def totalHistory (cols : List (String × List (ℤ × ℚ))) : List (ℤ × ℚ) :=
  (unionDates cols).map (fun d =>
    (d, (cols.map (fun c => ((c.2.lookup d).getD 0))).sum))

/-- The three-entry weight dict `{'Stock': _, 'ETF': _, 'Bond': _}`. -/
structure Weights where
  stock : ℚ
  etf : ℚ
  bond : ℚ
deriving DecidableEq

/-- The result tuple of `calculate_portfolio`:
`(portfolio, required_yield, usd_twd, total_history)`. -/
abbrev PortfolioResult := List Line × ℚ × ℚ × List (ℤ × ℚ)

/-- Models `calculate_portfolio(total_capital, monthly_income_goal, fetcher,
weights, custom_allocations)` (lines 96-268).  `now` abstracts
`pd.Timestamp.now()` for the dividend-fill cutoff. -/
def calculate_portfolio (f : Fetcher) (now : ℤ) (total_capital monthly_income_goal : ℚ)
    (w : Weights) (custom_allocations : List (String × ℚ)) :
    Except PyErr PortfolioResult :=
  let annual_income_goal := monthly_income_goal * 12
  let required_yield :=
    if 0 < total_capital then annual_income_goal / total_capital * 100 else 0
  let usd_twd := f.exchange_rate
  match processCustoms f now usd_twd total_capital custom_allocations total_capital [] with
  | .error e => .error e
  | .ok (remaining_capital, customLines) =>
    let portfolio :=
      customLines ++
        (if 0 < remaining_capital then
          process_category f now usd_twd (candidates.filter (fun c => c.ctype = "Stock"))
              (remaining_capital * w.stock) ++
            process_category f now usd_twd (candidates.filter (fun c => c.ctype = "ETF"))
              (remaining_capital * w.etf) ++
            process_category f now usd_twd (candidates.filter (fun c => c.ctype = "Bond"))
              (remaining_capital * w.bond)
        else [])
    .ok (portfolio, required_yield, usd_twd,
      totalHistory (buildColumns f usd_twd portfolio []))

/-- Models `generate_scenarios` (lines 313-332): three builds — the caller's
weights with the caller's custom list, Conservative `{0.2, 0.4, 0.4}` with
an empty custom list, Aggressive `{0.6, 0.4, 0.0}` with an empty custom
list. -/
def generate_scenarios (f : Fetcher) (now : ℤ) (total_capital monthly_income_goal : ℚ)
    (user_weights : Weights) (custom_allocations : List (String × ℚ)) :
    Except PyErr (List (String × PortfolioResult)) := do
  let custom_port ← calculate_portfolio f now total_capital monthly_income_goal
      user_weights custom_allocations
  let conservative_port ← calculate_portfolio f now total_capital monthly_income_goal
      ⟨2/10, 4/10, 4/10⟩ []
  let aggressive_port ← calculate_portfolio f now total_capital monthly_income_goal
      ⟨6/10, 4/10, 0⟩ []
  return [("Custom", custom_port), ("Conservative", conservative_port),
          ("Aggressive", aggressive_port)]

/-- The `total_history` component of a build, `[]` when the build raised. -/
def resultHistory : Except PyErr PortfolioResult → List (ℤ × ℚ)
  | .ok r => r.2.2.2
  | .error _ => []

/-- The `portfolio` component of a build, `[]` when the build raised. -/
def resultLines : Except PyErr PortfolioResult → List Line
  | .ok r => r.1
  | .error _ => []

/-- A fetcher on which every price fetch reports the price as unavailable
(the exchange-rate fallback 32.5 is kept). -/
def unavailableFetcher : Fetcher :=
  ⟨65 / 2, fun _ => none, fun _ => ⟨"N/A", 0⟩, fun _ => [], fun _ => [],
   fun _ => [], fun _ => none⟩

/-- Claim C1: the spec requires a custom request whose price fetch returns
unavailable to be SKIPPED (log and continue), with no exception escaping
`BuildPortfolio`.  The code instead raises `NameError` at line 120, because
`logging` is referenced there but never imported in portfolio_calculator.py:
this theorem evaluates the build at such an input and shows the exception
escaping. -/
theorem claim_C1_unavailable_custom_price_raises :
    calculate_portfolio unavailableFetcher 0 1000000 5000 ⟨5/10, 3/10, 2/10⟩
        [("XYZ", 1/10)] =
      .error (.nameError "logging") := rfl

/-- Claim C4: the claim quantifies over every input, but when the Custom
build's custom list contains a symbol with an unavailable price the whole
`GenerateScenarios` call raises `NameError` (the claim-C1 slip) and no
three-key mapping is returned; on inputs where the custom pass does not
raise, the result has exactly the keys Custom, Conservative, Aggressive in
this order. -/
theorem claim_C4_scenarios_crash_and_keys :
    generate_scenarios unavailableFetcher 0 1000000 5000 ⟨5/10, 3/10, 2/10⟩
        [("XYZ", 1/10)] =
      .error (.nameError "logging") ∧
    (generate_scenarios unavailableFetcher 0 1000000 5000 ⟨5/10, 3/10, 2/10⟩ []).map
        (fun l => l.map Prod.fst) =
      .ok ["Custom", "Conservative", "Aggressive"] :=
  ⟨rfl, rfl⟩

/-! ## Characterizing the column accumulation -/

/-- Association-list `lookup` distributes over append via first-hit semantics. -/
lemma lookup_append {β : Type} (l₁ l₂ : List (String × β)) (s : String) :
    (l₁ ++ l₂).lookup s = ((l₁.lookup s).orElse (fun _ => l₂.lookup s)) := by
  induction l₁ with
  | nil => simp [Option.orElse]
  | cons p rest ih =>
    obtain ⟨k, v⟩ := p
    cases h : s == k with
    | true => simp [List.lookup, h, Option.orElse]
    | false => simp [List.lookup, h, ih]

/-- Key membership in string-keyed association lists. -/
lemma contains_map_fst_iff {β : Type} (acc : List (String × β)) (s : String) :
    ((acc.map Prod.fst).contains s = true) ↔ s ∈ acc.map Prod.fst := by
  constructor
  · intro h
    rcases List.contains_iff_exists_mem_beq.mp h with ⟨a, ha, hb⟩
    rwa [eq_of_beq hb]
  · intro h
    exact List.contains_iff_exists_mem_beq.mpr ⟨s, h, by simp⟩

/-- A successful `lookup` is key membership. -/
lemma lookup_isSome_iff {β : Type} (acc : List (String × β)) (s : String) :
    ((acc.lookup s).isSome = true) ↔ s ∈ acc.map Prod.fst := by
  induction acc with
  | nil => simp
  | cons p rest ih =>
    obtain ⟨k, v⟩ := p
    by_cases h : s = k
    · subst h; simp [List.lookup]
    · have hfalse : (s == k) = false := by simp [h]
      simp [List.lookup, hfalse, h, ih]

/-- The aggregate column assembled for a symbol is the scaled series of the
FIRST portfolio line bearing that symbol (when its 6-month history is
non-empty), regardless of any later lines with the same symbol. -/
lemma buildColumns_lookup (f : Fetcher) (usd : ℚ) :
    ∀ (lines : List Line) (acc : List (String × List (ℤ × ℚ))) (s : String),
      (buildColumns f usd lines acc).lookup s =
        ((acc.lookup s).orElse (fun _ =>
          (lines.find? (fun l => l.symbol == s)).bind (fun l =>
            if f.historical_6mo s = [] then none
            else some (scaleSeries usd s l.quantity (f.historical_6mo s))))) := by
  intro lines
  induction lines with
  | nil =>
    intro acc s
    simp only [buildColumns, List.find?_nil, Option.none_bind]
    cases acc.lookup s <;> simp [Option.orElse]
  | cons l rest ih =>
    intro acc s
    simp only [buildColumns]
    by_cases hls : l.symbol = s
    · subst hls
      have hfind : (l :: rest).find? (fun l' => l'.symbol == l.symbol) = some l := by
        simp [List.find?_cons]
      by_cases hh : f.historical_6mo l.symbol = []
      · rw [if_pos hh, ih]
        have hnone : ∀ o : Option Line,
            o.bind (fun l' =>
              if f.historical_6mo l.symbol = [] then none
              else some (scaleSeries usd l.symbol l'.quantity (f.historical_6mo l.symbol)))
              = none := by
          intro o; cases o <;> simp [hh]
        rw [hfind, hnone, hnone]
      · rw [if_neg hh]
        by_cases hc : ((acc.map Prod.fst).contains l.symbol : Bool) = true
        · rw [if_pos hc, ih]
          have hsome : (acc.lookup l.symbol).isSome = true :=
            (lookup_isSome_iff acc l.symbol).mpr ((contains_map_fst_iff acc l.symbol).mp hc)
          obtain ⟨v, hv⟩ := Option.isSome_iff_exists.mp hsome
          rw [hv]
          simp [Option.orElse]
        · rw [if_neg hc, ih, lookup_append]
          have hnone : acc.lookup l.symbol = none := by
            cases hx : acc.lookup l.symbol
            · rfl
            · exact absurd ((contains_map_fst_iff acc l.symbol).mpr
                ((lookup_isSome_iff acc l.symbol).mp (by simp [hx]))) hc
          rw [hnone, hfind]
          simp [List.lookup, Option.orElse, hh]
    · have hbeq : (l.symbol == s) = false := by
        simp [hls]
      have hfind : (l :: rest).find? (fun l' => l'.symbol == s) =
          rest.find? (fun l' => l'.symbol == s) := by
        simp [List.find?_cons, hbeq]
      by_cases hh : f.historical_6mo l.symbol = []
      · rw [if_pos hh, ih, hfind]
      · rw [if_neg hh]
        by_cases hc : ((acc.map Prod.fst).contains l.symbol : Bool) = true
        · rw [if_pos hc, ih, hfind]
        · rw [if_neg hc, ih, lookup_append, hfind]
          have hbeq2 : (s == l.symbol) = false := by
            simp [(Ne.symm hls : s ≠ l.symbol)]
          have hsingle : ([(l.symbol,
              scaleSeries usd l.symbol l.quantity (f.historical_6mo l.symbol))].lookup s)
              = none := by
            simp [List.lookup, hbeq2]
          rw [hsingle]
          cases acc.lookup s <;> simp [Option.orElse]

/-- The columns carry pairwise-distinct symbols. -/
lemma buildColumns_nodup_keys (f : Fetcher) (usd : ℚ) :
    ∀ (lines : List Line) (acc : List (String × List (ℤ × ℚ))),
      (acc.map Prod.fst).Nodup → ((buildColumns f usd lines acc).map Prod.fst).Nodup := by
  intro lines
  induction lines with
  | nil => intro acc h; simpa [buildColumns] using h
  | cons l rest ih =>
    intro acc h
    simp only [buildColumns]
    split
    · exact ih acc h
    · split
      · exact ih acc h
      · rename_i h1 h2
        apply ih
        have hmem : l.symbol ∉ acc.map Prod.fst := by
          intro hmem
          exact h2 ((contains_map_fst_iff acc l.symbol).mpr hmem)
        simp [List.nodup_append, h, hmem]

/-- Skipped lines leave the accumulator untouched. -/
lemma buildColumns_all_empty (f : Fetcher) (usd : ℚ) :
    ∀ (lines : List Line) (acc : List (String × List (ℤ × ℚ))),
      (∀ l ∈ lines, f.historical_6mo l.symbol = []) → buildColumns f usd lines acc = acc := by
  intro lines
  induction lines with
  | nil => intro acc _; rfl
  | cons l rest ih =>
    intro acc hall
    simp only [buildColumns]
    rw [if_pos (hall l (by simp))]
    exact ih acc (fun l' hl' => hall l' (by simp [hl']))

/-- The dates of the aggregate series are exactly the union index. -/
lemma totalHistory_keys (cols : List (String × List (ℤ × ℚ))) :
    (totalHistory cols).map Prod.fst = unionDates cols := by
  unfold totalHistory
  rw [List.map_map]
  have h : (Prod.fst ∘ fun d : ℤ =>
      (d, (cols.map (fun c => ((c.2.lookup d).getD 0))).sum)) = id := rfl
  rw [h, List.map_id]

/-- Each entry of the aggregate series is the missing-entries-skipped
per-date sum over the columns. -/
lemma totalHistory_mem (cols : List (String × List (ℤ × ℚ))) (d : ℤ) (v : ℚ)
    (h : (d, v) ∈ totalHistory cols) :
    v = (cols.map (fun c => ((c.2.lookup d).getD 0))).sum := by
  simp only [totalHistory, List.mem_map] at h
  obtain ⟨d', _, hd⟩ := h
  obtain ⟨h1, h2⟩ := Prod.mk.injEq _ _ _ _ ▸ hd
  subst h1
  exact h2.symm

/-- Claim C10: in the aggregate-history reconstruction, each symbol gets at
most one column — the scaled series of the FIRST portfolio line bearing that
symbol (and no column at all when that symbol's 6-month history is empty) —
so every later line with the same symbol contributes nothing to the
aggregate history, even though it remains in the line list. -/
theorem claim_C10_duplicate_symbol_first_line_only (f : Fetcher) (usd : ℚ)
    (lines : List Line) (s : String) :
    (buildColumns f usd lines []).lookup s =
      (lines.find? (fun l => l.symbol == s)).bind (fun l =>
        if f.historical_6mo s = [] then none
        else some (scaleSeries usd s l.quantity (f.historical_6mo s))) ∧
    ((buildColumns f usd lines []).map Prod.fst).Nodup := by
  constructor
  · rw [buildColumns_lookup]
    simp [Option.orElse]
  · exact buildColumns_nodup_keys f usd lines [] (by simp)

/-! ## Spec-side description of the aggregate alignment (claim C3) -/

/-- Follows the spec's words for the per-symbol alignment: the value of one
column at a date after forward-filling (last value at or before the date)
then backward-filling (first value after it). -/
def ffillLookup (s : List (ℤ × ℚ)) (d : ℤ) : Option ℚ :=
  match (s.filter (fun p => p.1 ≤ d)).getLast? with
  | some p => some p.2
  | none => (s.filter (fun p => d < p.1)).head?.map Prod.snd

/-- Follows the spec's words for the aggregate series claim C3 describes:
defined on the union of dates, with every symbol's series forward- then
backward-filled before summing, so that no date omits any symbol's
contribution. -/
def specAggregateSeries (cols : List (String × List (ℤ × ℚ))) : List (ℤ × ℚ) :=
  (unionDates cols).map (fun d =>
    (d, (cols.map (fun c => ((ffillLookup c.2 d).getD 0))).sum))

/-- Claim C3 (amended): for every successful build, the returned aggregate
history is defined at exactly the union of the per-symbol 6-month dates, and
at each such date its value is the sum of the per-symbol scaled closes over
the symbols WHOSE SERIES CONTAINS THAT DATE — a symbol with no entry at a
date contributes 0 there (`DataFrame.sum` skips missing entries; no
per-symbol forward/backward fill happens, see `claim_C3_counterexample`) —
and the aggregate is empty when no line has any 6-month history. -/
theorem claim_C3_aggregate_skips_missing_dates (f : Fetcher) (now : ℤ)
    (total_capital monthly_income_goal : ℚ) (w : Weights)
    (customs : List (String × ℚ)) (portfolio : List Line) (ry usd : ℚ)
    (th : List (ℤ × ℚ))
    (hok : calculate_portfolio f now total_capital monthly_income_goal w customs =
      .ok (portfolio, ry, usd, th)) :
    th = totalHistory (buildColumns f f.exchange_rate portfolio []) ∧
    th.map Prod.fst = unionDates (buildColumns f f.exchange_rate portfolio []) ∧
    (∀ d v, (d, v) ∈ th →
      v = ((buildColumns f f.exchange_rate portfolio []).map
            (fun c => ((c.2.lookup d).getD 0))).sum) ∧
    ((∀ l ∈ portfolio, f.historical_6mo l.symbol = []) → th = []) := by
  have hth : th = totalHistory (buildColumns f f.exchange_rate portfolio []) := by
    rcases hp : processCustoms f now f.exchange_rate total_capital customs total_capital []
      with e | ⟨rem, customLines⟩
    · simp only [calculate_portfolio, hp] at hok
      exact absurd hok (by simp)
    · simp only [calculate_portfolio, hp, Except.ok.injEq, Prod.mk.injEq] at hok
      obtain ⟨h1, _, _, h4⟩ := hok
      subst h1
      exact h4.symm
  refine ⟨hth, ?_, ?_, ?_⟩
  · rw [hth]
    exact totalHistory_keys _
  · intro d v hmem
    rw [hth] at hmem
    exact totalHistory_mem _ d v hmem
  · intro hall
    rw [hth, buildColumns_all_empty f f.exchange_rate portfolio [] hall]
    rfl

/-- Witness for claim C3 (amended): a build that succeeds with an empty
portfolio and an empty aggregate history. -/
theorem claim_C3_aggregate_skips_missing_dates_witness :
    ([] : List (ℤ × ℚ)) =
      totalHistory (buildColumns unavailableFetcher unavailableFetcher.exchange_rate [] []) ∧
    ([] : List (ℤ × ℚ)).map Prod.fst =
      unionDates (buildColumns unavailableFetcher unavailableFetcher.exchange_rate [] []) ∧
    (∀ d v, (d, v) ∈ ([] : List (ℤ × ℚ)) →
      v = ((buildColumns unavailableFetcher unavailableFetcher.exchange_rate [] []).map
            (fun c => ((c.2.lookup d).getD 0))).sum) ∧
    ((∀ l ∈ ([] : List Line), unavailableFetcher.historical_6mo l.symbol = []) →
      ([] : List (ℤ × ℚ)) = []) :=
  claim_C3_aggregate_skips_missing_dates unavailableFetcher 0 20 0 ⟨1, 0, 0⟩ [] [] 0 (65/2) []
    (by norm_num [calculate_portfolio, processCustoms, process_category, candidates,
      unavailableFetcher, totalHistory, unionDates, buildColumns, dedupAdjacent])

/-- A fetcher that resolves prices only for the two Stock candidates, with a
two-day 6-month history for 2330.TW and a one-day history for AAPL
(exchange rate 1 for arithmetic transparency). -/
def twoStockFetcher : Fetcher :=
  ⟨1,
   fun s => if s = "2330.TW" then some 10 else if s = "AAPL" then some 10 else none,
   fun _ => ⟨"N/A", 0⟩,
   fun _ => [],
   fun _ => [],
   fun s => if s = "2330.TW" then [(1, 10), (2, 10)]
            else if s = "AAPL" then [(1, 5)] else [],
   fun _ => none⟩

/-- Counterexample to claim C3 as stated: building with capital 20 and
weights `{Stock: 1, ETF: 0, Bond: 0}` on `twoStockFetcher` yields one share
each of 2330.TW (close 10 on dates 1 and 2) and AAPL (close 5 on date 1
only).  At date 2 the claim's per-symbol forward-fill would value the
portfolio at `10 + 5 = 15`, but the returned aggregate history values it at
`10`: the AAPL contribution is silently dropped at dates AAPL's series does
not contain. -/
theorem claim_C3_counterexample :
    resultHistory (calculate_portfolio twoStockFetcher 0 20 0 ⟨1, 0, 0⟩ []) =
      [(1, 15), (2, 10)] ∧
    specAggregateSeries (buildColumns twoStockFetcher 1
        (resultLines (calculate_portfolio twoStockFetcher 0 20 0 ⟨1, 0, 0⟩ [])) []) =
      [(1, 15), (2, 15)] := by
  have htw1 : isTwSymbol "2330.TW" = true := by decide
  have htw2 : isTwSymbol "AAPL" = false := by decide
  have hb11 : ((1 : ℤ) == (1 : ℤ)) = true := by decide
  have hb21 : ((2 : ℤ) == (1 : ℤ)) = false := by decide
  have hb12 : ((1 : ℤ) == (2 : ℤ)) = false := by decide
  have hb22 : ((2 : ℤ) == (2 : ℤ)) = true := by decide
  have hstocks : candidates.filter (fun c => c.ctype = "Stock") =
      [⟨"2330.TW", "台積電", "Stock", "TW"⟩, ⟨"AAPL", "Apple Inc.", "Stock", "US"⟩] := by
    decide
  have hetfs : candidates.filter (fun c => c.ctype = "ETF") =
      [⟨"0050.TW", "元大台灣50", "ETF", "TW"⟩, ⟨"0056.TW", "元大高股息", "ETF", "TW"⟩,
       ⟨"VOO", "Vanguard S&P 500 ETF", "ETF", "US"⟩] := by
    decide
  have hbonds : candidates.filter (fun c => c.ctype = "Bond") =
      [⟨"00679B.TW", "元大美債20年", "Bond", "TW"⟩,
       ⟨"BND", "Vanguard Total Bond Market", "Bond", "US"⟩] := by
    decide
  have hp1 : twoStockFetcher.stock_price "2330.TW" = some 10 := by
    simp [twoStockFetcher]
  have hp2 : twoStockFetcher.stock_price "AAPL" = some 10 := by
    simp [twoStockFetcher]
  have hh1 : twoStockFetcher.historical_6mo "2330.TW" = [(1, 10), (2, 10)] := by
    simp [twoStockFetcher]
  have hh2 : twoStockFetcher.historical_6mo "AAPL" = [(1, 5)] := by
    simp [twoStockFetcher]
  have hne : ("AAPL" = "2330.TW") = False := by simp
  have hl0 : (([(1, 10), (2, 10)] : List (ℤ × ℚ)) = []) = False := by simp
  have hl5 : (([(1, 5)] : List (ℤ × ℚ)) = []) = False := by simp
  have hex : twoStockFetcher.exchange_rate = 1 := rfl
  have hdiv : ∀ s, twoStockFetcher.dividend_info s = ⟨"N/A", 0⟩ := fun _ => rfl
  have h2y : ∀ s, twoStockFetcher.historical_2y s = [] := fun _ => rfl
  have hdh : ∀ s, twoStockFetcher.dividend_history s = [] := fun _ => rfl
  constructor
  · norm_num [resultHistory, calculate_portfolio, processCustoms, process_category,
      hstocks, hetfs, hbonds, hp1, hp2, hh1, hh2, hex, hdiv, h2y, hdh,
      mkCategoryLine, quantityCategory, pyInt,
      buildColumns, scaleSeries, totalHistory, unionDates, dedupAdjacent, insertSorted,
      List.lookup, List.filterMap_cons, htw1, htw2, hb11, hb21, hb12, hb22, Int.floor_one,
      hne, hl0, hl5]
  · norm_num [resultLines, calculate_portfolio, processCustoms, process_category,
      hstocks, hetfs, hbonds, hp1, hp2, hh1, hh2, hex, hdiv, h2y, hdh,
      mkCategoryLine, quantityCategory, pyInt,
      buildColumns, scaleSeries, specAggregateSeries, ffillLookup, unionDates,
      dedupAdjacent, insertSorted, List.lookup, List.filterMap_cons, htw1, htw2,
      hb11, hb21, hb12, hb22, Int.floor_one, List.getLast?_singleton, hne, hl0, hl5]

/-! ## Dividend-yield resolution (`data_fetcher.get_dividend_info`,
lines 60-142) -/

/-- The slice of `yf.Ticker(symbol).info` / `fast_info` / `dividends` that
`get_dividend_info` reads. -/
structure TickerInfo where
  dividendYield : Option ℚ
  trailingAnnualDividendRate : Option ℚ
  currentPrice : Option ℚ
  regularMarketPreviousClose : Option ℚ
  fastInfoLastPrice : Option ℚ
  dividends : List DivEvent
deriving DecidableEq

/-- Python truthiness of an optional number: `None` and `0` are falsy. -/
def optTruthy : Option ℚ → Bool
  | none => false
  | some x => decide (x ≠ 0)

/-- Python `a or b` on optional numbers: `b` whenever `a` is falsy. -/
def pyOr (a b : Option ℚ) : Option ℚ :=
  if optTruthy a then a else b

/-- The dividend-yield resolution of `get_dividend_info` (lines 65-108) as
the code actually behaves: a published `dividendYield` is divided by 100
(explicit `is not None` check); otherwise `trailingAnnualDividendRate /
price` when both are truthy; otherwise the code enters the dividend-history
fallback of lines 88-108 — which, whenever the history is non-empty,
unconditionally raises `NameError` at line 95 because `timedelta` is never
imported in data_fetcher.py; the inner `except` of line 107 swallows that
error, so the yield stays at its initial `0.0` either way. -/
def get_dividend_info_yield (info : TickerInfo) : ℚ :=
  match info.dividendYield with
  | some y => y / 100
  | none =>
    let rate := info.trailingAnnualDividendRate
    let price := pyOr info.currentPrice info.regularMarketPreviousClose
    if optTruthy rate && optTruthy price then rate.getD 0 / price.getD 0
    else 0

/-- Follows the spec's words for the intended resolution order: a published
trailing yield; else trailing annual dividend rate ÷ current price; else the
sum of dividend events in the trailing 365 days ÷ current price; else 0. -/
def specDividendYield (now : ℤ) (info : TickerInfo) : ℚ :=
  match info.dividendYield with
  | some y => y / 100
  | none =>
    let rate := info.trailingAnnualDividendRate
    let price := pyOr info.currentPrice info.regularMarketPreviousClose
    if optTruthy rate && optTruthy price then rate.getD 0 / price.getD 0
    else
      match pyOr price info.fastInfoLastPrice with
      | some p =>
        if 0 < p ∧ info.dividends ≠ [] then
          ((info.dividends.filter (fun e => now - 365 ≤ e.date)).map DivEvent.amount).sum / p
        else 0
      | none => 0

/-- A ticker with no published yield and no trailing rate, but a non-empty
dividend history (one event of amount 2 inside the trailing 365 days) and a
positive current price of 50. -/
def c9Info : TickerInfo :=
  ⟨none, none, some 50, none, none, [⟨0, 2⟩]⟩

/-- Claim C9: the spec requires the third resolution step — trailing-365-day
dividend sum ÷ current price — to produce `2 / 50 = 1/25` on `c9Info`; the
code instead returns 0, because the fallback block always raises `NameError`
(`timedelta` undefined) which the inner `except` swallows. -/
theorem claim_C9_history_fallback_returns_zero :
    get_dividend_info_yield c9Info = 0 ∧
    specDividendYield 100 c9Info = 1 / 25 ∧ (1 / 25 : ℚ) ≠ 0 := by
  refine ⟨?_, ?_, by norm_num⟩
  · norm_num [get_dividend_info_yield, c9Info, optTruthy, pyOr]
  · norm_num [specDividendYield, c9Info, optTruthy, pyOr]

end ProductionCash
